import Mathlib

set_option maxRecDepth 100000
set_option maxHeartbeats 1000000

/-!
Verification of the COD-app proxy core (cod-app repository).

Shallow embedding conventions:

* JavaScript strings are modelled as their byte sequences, `Str := List Nat`
  (each entry a byte value; all concrete inputs in this file are ASCII, where
  JavaScript's UTF-16 code-unit order and UTF-8 byte order coincide, so the
  default `Array.prototype.sort` comparison on keys is byte-lexicographic).
* An Express query object (`req.query`) is an association list from keys to
  values, a value being either a single string or an array of strings (the
  shapes the `qs` parser produces); JavaScript objects cannot repeat a key,
  which theorems record as a `Nodup` hypothesis on the key list.
* `crypto.createHmac("sha256", secret).update(msg).digest("hex")` is embedded
  by a full executable HMAC-SHA256 over byte lists (validated against the
  FIPS 180-4 / RFC 4231 test vectors during development), with 32-bit
  machine arithmetic expressed as `Nat` operations reduced `% 2^32`.
* `Buffer.from(x, "utf-8")` is embedded by `bufferFromQVal`: a string gives
  its bytes; `Buffer.from(array)` coerces each entry with JavaScript
  `ToNumber` truncated modulo 256 (a decimal-numeral string gives its value,
  anything non-numeric gives 0 via the NaN-to-zero conversion; the narrower
  JS numeric forms — signs, decimals, hex, surrounding whitespace — do not
  occur in any statement below); `Buffer.from(undefined)` throws, modelled
  as `none`.
* `crypto.timingSafeEqual` throws on a length mismatch; the `try/catch`
  around it in `verifyProxyHmac` turns every such throw into `false`,
  modelled by `Option` plus `getD false`.
* The Express handlers are embedded as pure functions from the request parts,
  the credential table, and a downstream-response oracle to an HTTP response
  plus an ordered trace of observable effects (signature check, store lookup,
  downstream fetch).  A JavaScript property access that throws inside the
  handler's `try` is modelled by the branch the `catch` produces
  (`500 Server error`).
* The Postgres table `shop_sessions` (shop primary key) is a list of rows;
  `upsert` embeds the `insert ... on conflict(shop) do update set
  access_token=excluded.access_token, scope=excluded.scope` statement from
  the source: the conflicting row keeps its `created_at` and only
  `access_token`/`scope` are replaced.
-/

/-- Byte strings: JavaScript strings as lists of byte values. -/
abbrev Str := List Nat

/-- Bytes of an ASCII string literal. -/
def sb (s : String) : Str := s.data.map (fun c => c.toNat)

/-! SHA-256 core (FIPS 180-4), over byte lists, 32-bit words as `Nat % 2^32`. -/

/-- Modulus for 32-bit words. -/
def M32 : Nat := 4294967296

/-- Addition modulo 2^32. -/
def add32 (x y : Nat) : Nat := (x + y) % M32

/-- Rotate a 32-bit word right by `n`. -/
def rotr (n x : Nat) : Nat :=
  Nat.lor (x >>> n) ((x % 2 ^ n) <<< (32 - n))

/-- SHA-256 choice function: (x AND y) XOR (NOT x AND z). -/
def chF (x y z : Nat) : Nat :=
  Nat.xor (Nat.land x y) (Nat.land (Nat.xor x 4294967295) z)

/-- SHA-256 majority function. -/
def majF (x y z : Nat) : Nat :=
  Nat.xor (Nat.xor (Nat.land x y) (Nat.land x z)) (Nat.land y z)

/-- SHA-256 big sigma 0. -/
def bsig0 (x : Nat) : Nat := Nat.xor (rotr 2 x) (Nat.xor (rotr 13 x) (rotr 22 x))

/-- SHA-256 big sigma 1. -/
def bsig1 (x : Nat) : Nat := Nat.xor (rotr 6 x) (Nat.xor (rotr 11 x) (rotr 25 x))

/-- SHA-256 small sigma 0. -/
def ssig0 (x : Nat) : Nat := Nat.xor (rotr 7 x) (Nat.xor (rotr 18 x) (x >>> 3))

/-- SHA-256 small sigma 1. -/
def ssig1 (x : Nat) : Nat := Nat.xor (rotr 17 x) (Nat.xor (rotr 19 x) (x >>> 10))

/-- SHA-256 round constants. -/
def K256 : List Nat :=
  [1116352408, 1899447441, 3049323471, 3921009573, 961987163,
   1508970993, 2453635748, 2870763221, 3624381080, 310598401,
   607225278, 1426881987, 1925078388, 2162078206, 2614888103,
   3248222580, 3835390401, 4022224774, 264347078, 604807628,
   770255983, 1249150122, 1555081692, 1996064986, 2554220882,
   2821834349, 2952996808, 3210313671, 3336571891, 3584528711,
   113926993, 338241895, 666307205, 773529912, 1294757372,
   1396182291, 1695183700, 1986661051, 2177026350, 2456956037,
   2730485921, 2820302411, 3259730800, 3345764771, 3516065817,
   3600352804, 4094571909, 275423344, 430227734, 506948616,
   659060556, 883997877, 958139571, 1322822218, 1537002063,
   1747873779, 1955562222, 2024104815, 2227730452, 2361852424,
   2428436474, 2756734187, 3204031479, 3329325298]

/-- The eight 32-bit working variables of the SHA-256 compression function. -/
structure H8 where
  a : Nat
  b : Nat
  c : Nat
  d : Nat
  e : Nat
  f : Nat
  g : Nat
  h : Nat
deriving DecidableEq

/-- SHA-256 initial hash value. -/
def initH : H8 :=
  H8.mk 1779033703 3144134277 1013904242 2773480762 1359893119 2600822924 528734635 1541459225

/-- Extend a 16-word block to the 64-word message schedule (`n` rounds left). -/
def extendW : Nat → List Nat → List Nat
  | 0, w => w
  | n + 1, w =>
      let t := add32 (add32 (ssig1 (w.getD (w.length - 2) 0)) (w.getD (w.length - 7) 0))
                     (add32 (ssig0 (w.getD (w.length - 15) 0)) (w.getD (w.length - 16) 0))
      extendW n (w ++ [t])

/-- One SHA-256 round, consuming one (constant, schedule-word) pair. -/
def roundF (st : H8) (kw : Nat × Nat) : H8 :=
  let t1 := add32 st.h (add32 (bsig1 st.e) (add32 (chF st.e st.f st.g) (add32 kw.1 kw.2)))
  let t2 := add32 (bsig0 st.a) (majF st.a st.b st.c)
  H8.mk (add32 t1 t2) st.a st.b st.c (add32 st.d t1) st.e st.f st.g

/-- Compress one 16-word block into the running state. -/
def compressBlock (st : H8) (block : List Nat) : H8 :=
  let w := extendW 48 block
  let s2 := (K256.zip w).foldl roundF st
  H8.mk (add32 st.a s2.a) (add32 st.b s2.b) (add32 st.c s2.c) (add32 st.d s2.d)
        (add32 st.e s2.e) (add32 st.f s2.f) (add32 st.g s2.g) (add32 st.h s2.h)

/-- A natural number as 8 big-endian bytes. -/
def be8 (n : Nat) : List Nat :=
  [n >>> 56 % 256, n >>> 48 % 256, n >>> 40 % 256, n >>> 32 % 256,
   n >>> 24 % 256, n >>> 16 % 256, n >>> 8 % 256, n % 256]

/-- SHA-256 padding: 0x80, zeros to 56 mod 64, then the bit length. -/
def padMsg (msg : List Nat) : List Nat :=
  let l := msg.length
  msg ++ [128] ++ List.replicate ((119 - l % 64) % 64) 0 ++ be8 (8 * l)

/-- Big-endian bytes to 32-bit words, four at a time. -/
def bytesToWords : List Nat → List Nat
  | b0 :: b1 :: b2 :: b3 :: rest =>
      ((b0 <<< 24) + (b1 <<< 16) + (b2 <<< 8) + b3) :: bytesToWords rest
  | _ => []

/-- Group a word list into 16-word blocks (structurally, so the kernel can run it). -/
def wordsToBlocks : List Nat → List (List Nat)
  | w0 :: w1 :: w2 :: w3 :: w4 :: w5 :: w6 :: w7 ::
    w8 :: w9 :: w10 :: w11 :: w12 :: w13 :: w14 :: w15 :: rest =>
      [w0, w1, w2, w3, w4, w5, w6, w7, w8, w9, w10, w11, w12, w13, w14, w15] :: wordsToBlocks rest
  | _ => []

/-- A 32-bit word as 4 big-endian bytes. -/
def word4 (w : Nat) : List Nat := [w >>> 24 % 256, w >>> 16 % 256, w >>> 8 % 256, w % 256]

/-- Final state as the 32 digest bytes. -/
def stateToBytes (st : H8) : List Nat :=
  word4 st.a ++ word4 st.b ++ word4 st.c ++ word4 st.d ++
  word4 st.e ++ word4 st.f ++ word4 st.g ++ word4 st.h

/-- SHA-256 of a byte list. -/
def sha256 (msg : List Nat) : List Nat :=
  stateToBytes ((wordsToBlocks (bytesToWords (padMsg msg))).foldl compressBlock initH)

/-- Lowercase hexadecimal digit for a value below 16. -/
def hexDigit (n : Nat) : Nat := if n < 10 then 48 + n else 87 + n

/-- Lowercase hexadecimal rendering of a byte list (Node's `digest("hex")`). -/
def toHex (l : List Nat) : Str := l.flatMap (fun b => [hexDigit (b / 16), hexDigit (b % 16)])

/-- HMAC-SHA256 (RFC 2104) of a message under a key, as 32 digest bytes. -/
def hmacSha256 (key msg : List Nat) : List Nat :=
  let k0 := if key.length > 64 then sha256 key else key
  let kp := k0 ++ List.replicate (64 - k0.length) 0
  sha256 ((kp.map (fun b => Nat.xor b 92)) ++ sha256 ((kp.map (fun b => Nat.xor b 54)) ++ msg))

/-- Embeds `crypto.createHmac("sha256", secret).update(msg).digest("hex")`. -/
def hmacHex (key msg : Str) : Str := toHex (hmacSha256 key msg)

/-! The query model and the Signature Verifier (src/unnamed/part_001, lines 90-102). -/

/-- A query-parameter value as the `qs` parser delivers it: a string or an
array of strings. -/
inductive QVal where
  | str (s : Str)
  | arr (l : List Str)
deriving DecidableEq

/-- An Express `req.query` object: an association list with unique keys. -/
abbrev Query := List (Str × QVal)

/-- Join a list of strings with a separator (JavaScript `Array.prototype.join`). -/
def joinWith (sep : Str) : List Str → Str
  | [] => []
  | [x] => x
  | x :: xs => x ++ sep ++ joinWith sep xs

/-- The signature field's key, `"hmac"`. -/
def hmacKey : Str := sb "hmac"

/-- Renders a parameter value: `Array.isArray(rest[k]) ? rest[k].join(",") : rest[k]`. -/
def renderQVal : QVal → Str
  | QVal.str s => s
  | QVal.arr l => joinWith (sb ",") l

/-- Byte-lexicographic order on strings (JavaScript default sort comparison;
on the ASCII inputs of this development UTF-16 order and byte order agree). -/
def strLe : Str → Str → Bool
  | [], _ => true
  | _ :: _, [] => false
  | a :: as, b :: bs => if a < b then true else if b < a then false else strLe as bs

/-- Insert a key into a sorted key list (insertion sort step). -/
def insertKey (k : Str) : List Str → List Str
  | [] => [k]
  | x :: xs => if strLe k x then k :: x :: xs else x :: insertKey k xs

/-- Sort keys byte-lexicographically: `Object.keys(rest).sort()`. -/
def sortKeys : List Str → List Str
  | [] => []
  | k :: ks => insertKey k (sortKeys ks)

/-- Canonical message exactly as the code builds it:
`Object.keys(rest).sort().map(k => k + "=" + render(rest[k])).join("&")`. -/
def canonMsg (rest : Query) : Str :=
  joinWith (sb "&") ((sortKeys (rest.map Prod.fst)).map
    (fun k => k ++ sb "=" ++ renderQVal ((rest.lookup k).getD (QVal.str []))))

/-- True when the byte list consists of decimal digits only. -/
def allDecDigits (l : Str) : Bool := l.all (fun c => 48 ≤ c && c ≤ 57)

/-- Value of a decimal-digit byte list. -/
def decVal (l : Str) : Nat := l.foldl (fun acc c => acc * 10 + (c - 48)) 0

/-- One array entry under `Buffer.from(array)`: JavaScript `ToNumber` of the
string truncated modulo 256 (a decimal numeral gives its value, the empty
string 0, any other string NaN hence byte 0; no other numeric forms occur in
this development). -/
def jsNumberByte (s : Str) : Nat :=
  if allDecDigits s then decVal s % 256 else 0

/-- Embeds `Buffer.from(hmac, "utf-8")` applied to the raw query value:
a missing value (`undefined`) throws (`none`), a string gives its bytes, an
array is taken through Node's per-entry numeric coercion. -/
def bufferFromQVal : Option QVal → Option Str
  | none => none
  | some (QVal.str s) => some s
  | some (QVal.arr l) => some (l.map jsNumberByte)

/-- Embeds `crypto.timingSafeEqual`: defined only on equal lengths (a length
mismatch throws, hence `none`), byte equality otherwise. -/
def timingSafeEqualJs (a b : Str) : Option Bool :=
  if a.length = b.length then some (a == b) else none

/-- The body of the `try` block: build both buffers and compare; `none` is a
throw that the surrounding `catch` turns into `false`. -/
def tryCompare (digest : Str) (sigVal : Option QVal) : Option Bool :=
  (bufferFromQVal sigVal).bind (fun sigBytes => timingSafeEqualJs digest sigBytes)

/-- The Signature Verifier, `verifyProxyHmac(query, secret)` from
src/unnamed/part_001 lines 90-102: drop the `hmac` field, canonicalize,
HMAC-SHA256 as lowercase hex, then the guarded constant-time comparison. -/
def verifyProxyHmac (query : Query) (secret : Str) : Bool :=
  let rest := query.filter (fun p => !(p.1 == hmacKey))
  let digest := hmacHex secret (canonMsg rest)
  (tryCompare digest (query.lookup hmacKey)).getD false

/-! Definitions following the spec's words, for the refinement claims.  They
are written from spec.md section 4.2, independent of the code shape above. -/

/-- Insert a pair into a list of pairs sorted by key. -/
def insertPair (p : Str × QVal) : Query → Query
  | [] => [p]
  | x :: xs => if strLe p.1 x.1 then p :: x :: xs else x :: insertPair p xs

/-- Sort parameters by key (spec step 3, applied to whole pairs). -/
def sortPairs : Query → Query
  | [] => []
  | p :: ps => insertPair p (sortPairs ps)

/-- Modelled from the spec: the canonical message per spec.md section 4.2 —
render every remaining parameter, sort by key byte-lexicographically, join as
`key=value` pairs with `&`. -/
def specCanon (rest : Query) : Str :=
  joinWith (sb "&") ((sortPairs rest).map (fun p => p.1 ++ sb "=" ++ renderQVal p.2))

/-- Modelled from the spec (claim C1's reading): true exactly when the
supplied signature value equals the lowercase-hex digest of the canonical
message, the signature field removed first; an absent signature fails. -/
def specVerify (query : Query) (secret : Str) : Bool :=
  let rest := query.filter (fun p => !(p.1 == hmacKey))
  let digest := hmacHex secret (specCanon rest)
  decide (query.lookup hmacKey = some (QVal.str digest))

/-- The amended comparison the code actually implements: the supplied
signature's byte rendering (string bytes, or Node's numeric coercion of an
array) equals the digest's bytes; an absent signature fails. -/
def specVerifyBytes (query : Query) (secret : Str) : Bool :=
  let rest := query.filter (fun p => !(p.1 == hmacKey))
  let digest := hmacHex secret (specCanon rest)
  decide (bufferFromQVal (query.lookup hmacKey) = some digest)

/-! The Credential Store: the `shop_sessions` table and the two SQL
statements the handlers run against it. -/

/-- One row of `shop_sessions` (shop primary key). -/
structure Row where
  shop : Str
  access_token : Str
  scope : Option Str
  created_at : Nat
deriving DecidableEq

/-- The `shop_sessions` table. -/
abbrev ShopTable := List Row

/-- Embeds the callback's upsert statement (src/unnamed/part_001 lines 66-71,
src/server.js lines 92-97): `insert into shop_sessions(shop, access_token,
scope) values($1,$2,$3) on conflict(shop) do update set
access_token=excluded.access_token, scope=excluded.scope` — on conflict only
`access_token` and `scope` are replaced, `created_at` is untouched; with no
conflict a fresh row is inserted with `created_at` defaulted to `now`. -/
def upsert (tbl : ShopTable) (ten tok : Str) (sc : Option Str) (now : Nat) : ShopTable :=
  if tbl.any (fun r => r.shop == ten) then
    tbl.map (fun r => if r.shop == ten then Row.mk r.shop tok sc r.created_at else r)
  else
    tbl ++ [Row.mk ten tok sc now]

/-- Embeds `select access_token from shop_sessions where shop=$1` with the raw
query value as the parameter: only a string value can match a row (an absent
or array-valued `shop` matches nothing). -/
def lookupToken (tbl : ShopTable) (shop : Option QVal) : Option Str :=
  match shop with
  | some (QVal.str s) => (tbl.find? (fun r => r.shop == s)).map (fun r => r.access_token)
  | _ => none

/-! The Order Relay request/response data (src/unnamed/part_001 lines 104-162). -/

/-- A JSON value occurring in one of the handlers' response bodies. -/
inductive BVal where
  | b (v : Bool)
  | s (v : Str)
  | errList (l : List Str)
  | ueList (l : List (Str × Str))
deriving DecidableEq

/-- A JSON response body as an association list, so the key names the code
emits are part of the model. -/
abbrev JBody := List (Str × BVal)

/-- An HTTP response: status code and JSON body. -/
structure HttpResp where
  status : Nat
  body : JBody
deriving DecidableEq

/-- A request-body line item (`lineItems` entry): `variantId` and `quantity`,
quantity a JSON number when present. -/
structure LineItemIn where
  variantId : Option Str
  quantity : Option Nat
deriving DecidableEq

/-- The parsed JSON request body of `POST /proxy/cod`; absent fields are
`none` (an absent body behaves as all-absent via the code's `req.body || {}`
and destructuring defaults).  Only `customer.email` is read from `customer`.
`shop` is read from the body by the src/server.js variant only. -/
structure ReqBody where
  lineItems : Option (List LineItemIn)
  customerEmail : Option Str
  shippingAddress : Option Str
  note : Option Str
  codFee : Option Int
  shop : Option Str
deriving DecidableEq

/-- A line item of the downstream draft-order payload. -/
structure DraftLineItem where
  variantId : Option Str
  quantity : Nat
deriving DecidableEq

/-- The downstream order-creation payload `draftInput` the code builds
(src/unnamed/part_001 lines 122-133). -/
structure DraftInput where
  note : Str
  tags : List Str
  email : Option Str
  shippingAddress : Option Str
  billingAddress : Option Str
  customer : Option Str
  lineItems : List DraftLineItem
deriving DecidableEq

/-- JavaScript `parseInt(li.quantity || "1", 10)` for a JSON-number quantity:
absent or 0 is falsy and defaults to 1. -/
def jsQuantity : Option Nat → Nat
  | none => 1
  | some 0 => 1
  | some n => n

/-- JavaScript `x || null` / `x ? e1 : e2` on an optional string: the empty
string is falsy. -/
def nonEmptyStr : Option Str → Option Str
  | some s => if s.isEmpty then none else some s
  | none => none

/-- Build `draftInput` from the request body exactly as lines 114-133 do:
destructuring defaults, the two fixed tags, `email: customer.email || null`,
billing address copied from shipping, `customer` only when the email is
truthy, and per-item quantity defaulting.  The destructured `codFee` is not
read anywhere in the construction. -/
def buildDraftInput (body : ReqBody) : DraftInput :=
  DraftInput.mk
    ((body.note).getD (sb "COD order"))
    [sb "COD", sb "COD-App"]
    (nonEmptyStr body.customerEmail)
    body.shippingAddress
    body.shippingAddress
    (nonEmptyStr body.customerEmail)
    (((body.lineItems).getD []).map (fun li => DraftLineItem.mk li.variantId (jsQuantity li.quantity)))

/-- The draft order object inside a successful GraphQL response. -/
structure Draft where
  id : Str
  invoiceUrl : Str
deriving DecidableEq

/-- The `draftOrderCreate` field of the GraphQL response data. -/
structure DraftOrderCreate where
  draftOrder : Option Draft
  userErrors : List (Str × Str)
deriving DecidableEq

/-- The `data` object of the GraphQL response. -/
structure GqlData where
  draftOrderCreate : Option DraftOrderCreate
deriving DecidableEq

/-- The parsed JSON of the downstream GraphQL call: optional transport
`errors` and optional `data`. -/
structure GqlResp where
  errors : Option (List Str)
  data : Option GqlData
deriving DecidableEq

/-- An observable effect of the part_001 proxy handler, in execution order. -/
inductive Ev where
  | verified (ok : Bool)
  | storeLookup (shop : Option QVal)
  | fetchDraftOrder (shop : Option QVal) (token : Str) (input : DraftInput)
deriving DecidableEq

/-- A handler run: the HTTP response and the ordered effect trace. -/
structure Outcome where
  resp : HttpResp
  events : List Ev
deriving DecidableEq

/-- The `500 {ok:false, error:"Server error"}` body of the handler's catch. -/
def serverErrorBody : JBody := [(sb "ok", BVal.b false), (sb "error", BVal.s (sb "Server error"))]

/-- The `POST /proxy/cod` handler of src/unnamed/part_001 (lines 104-162):
HMAC gate, store lookup by `req.query.shop`, downstream draftOrderCreate
call, and the translation of the GraphQL result; property accesses that
throw on a missing `data`/`draftOrderCreate`/`draftOrder` land in the catch
as `500 Server error`.  `downstream` is the oracle for the HTTPS call,
applied to the shop, the access token and the payload. -/
def proxyCod (secret : Str) (q : Query) (body : ReqBody) (tbl : ShopTable)
    (downstream : Option QVal → Str → DraftInput → GqlResp) : Outcome :=
  if verifyProxyHmac q secret then
    let shop := q.lookup (sb "shop")
    match lookupToken tbl shop with
    | none =>
        Outcome.mk
          (HttpResp.mk 401 [(sb "ok", BVal.b false), (sb "error", BVal.s (sb "Shop not installed"))])
          [Ev.verified true, Ev.storeLookup shop]
    | some accessToken =>
        let draftInput := buildDraftInput body
        let resp := downstream shop accessToken draftInput
        let evs := [Ev.verified true, Ev.storeLookup shop,
                    Ev.fetchDraftOrder shop accessToken draftInput]
        match resp.errors with
        | some es =>
            Outcome.mk (HttpResp.mk 400 [(sb "ok", BVal.b false), (sb "errors", BVal.errList es)]) evs
        | none =>
            match resp.data with
            | none => Outcome.mk (HttpResp.mk 500 serverErrorBody) evs
            | some d =>
                match d.draftOrderCreate with
                | none => Outcome.mk (HttpResp.mk 500 serverErrorBody) evs
                | some doc =>
                    if doc.userErrors.length ≠ 0 then
                      Outcome.mk
                        (HttpResp.mk 400 [(sb "ok", BVal.b false), (sb "errors", BVal.ueList doc.userErrors)])
                        evs
                    else
                      match doc.draftOrder with
                      | none => Outcome.mk (HttpResp.mk 500 serverErrorBody) evs
                      | some draft =>
                          Outcome.mk
                            (HttpResp.mk 200 [(sb "ok", BVal.b true),
                                              (sb "draftOrderId", BVal.s draft.id),
                                              (sb "invoiceUrl", BVal.s draft.invoiceUrl)])
                            evs
  else
    Outcome.mk
      (HttpResp.mk 403 [(sb "ok", BVal.b false), (sb "error", BVal.s (sb "Bad HMAC"))])
      [Ev.verified false]

/-! The src/server.js proxy handler (lines 107-141), which has no signature
gate and falls back to the request body for the shop. -/

/-- An observable effect of the src/server.js handler. -/
inductive Ev2 where
  | storeLookup (shop : Str)
  | fetchRest (shop : Str) (token : Str)
deriving DecidableEq

/-- The downstream REST response: `resp.ok`, `resp.status`, parsed JSON body
kept opaque. -/
structure RestResp where
  ok : Bool
  status : Nat
  data : Str
deriving DecidableEq

/-- A src/server.js handler run. -/
structure Outcome2 where
  resp : HttpResp
  events : List Ev2
deriving DecidableEq

/-- JavaScript `toString()` of a query value: a string is itself, an array
joins with commas. -/
def jsToStringQVal : QVal → Str
  | QVal.str s => s
  | QVal.arr l => joinWith (sb ",") l

/-- JavaScript truthiness of a query value: the empty string is falsy, every
array (an object) is truthy. -/
def qvalTruthy : QVal → Bool
  | QVal.str s => !s.isEmpty
  | QVal.arr _ => true

/-- The body's `shop` under `|| ""`: an absent field gives the empty string. -/
def bodyShop (body : ReqBody) : Str :=
  match body.shop with
  | some s => s
  | none => []

/-- Embeds `(req.query.shop || req.body.shop || "").toString()` from
src/server.js line 110. -/
def shopOf (q : Query) (body : ReqBody) : Str :=
  match q.lookup (sb "shop") with
  | some v => if qvalTruthy v then jsToStringQVal v else bodyShop body
  | none => bodyShop body

/-- The `POST /proxy/cod` handler of src/server.js (lines 107-141), modelled
with the database configured (`getPool()` non-null, `ensureTablesSafe`
effect-free): no signature check, shop from query or body, fixed draft-order
payload, downstream status passed through on failure. -/
def serverProxyCod (q : Query) (body : ReqBody) (tbl : ShopTable)
    (downstream : Str → Str → RestResp) : Outcome2 :=
  let shop := shopOf q body
  if shop.isEmpty then
    Outcome2.mk (HttpResp.mk 400 [(sb "ok", BVal.b false), (sb "error", BVal.s (sb "Missing shop"))]) []
  else
    match (tbl.find? (fun r => r.shop == shop)).map (fun r => r.access_token) with
    | none =>
        Outcome2.mk
          (HttpResp.mk 401 [(sb "ok", BVal.b false), (sb "error", BVal.s (sb "Shop not installed"))])
          [Ev2.storeLookup shop]
    | some accessToken =>
        let resp := downstream shop accessToken
        let evs := [Ev2.storeLookup shop, Ev2.fetchRest shop accessToken]
        if resp.ok then
          Outcome2.mk (HttpResp.mk 200 [(sb "ok", BVal.b true), (sb "data", BVal.s resp.data)]) evs
        else
          Outcome2.mk (HttpResp.mk resp.status [(sb "ok", BVal.b false), (sb "data", BVal.s resp.data)]) evs

/-! Concrete inputs used by witnesses and counterexamples. -/

/-- Decimal numeral (ASCII digits) of a byte value below 256. -/
def natToDecStr (n : Nat) : Str :=
  if n < 10 then [48 + n]
  else if n < 100 then [48 + n / 10, 48 + n % 10]
  else [48 + n / 100, 48 + n / 10 % 10, 48 + n % 10]

/-- A concrete shared secret. -/
def secret0 : Str := sb "secret0"

/-- A one-parameter query carrying only the shop. -/
def restDemo : Query := [(sb "shop", QVal.str (sb "demo.example"))]

/-- The valid signature over `restDemo` under `secret0`. -/
def sigDemo : Str := hmacHex secret0 (canonMsg restDemo)

/-- A correctly signed query for `demo.example`. -/
def qDemo : Query := (hmacKey, QVal.str sigDemo) :: restDemo

/-- The valid signature smuggled in as an array of decimal numerals, the shape
`?hmac=104&hmac=109&...` produces after `qs` parsing. -/
def qArrDemo : Query := (hmacKey, QVal.arr (sigDemo.map natToDecStr)) :: restDemo

/-- A two-parameter set whose keys are out of order. -/
def restTwo : Query := [(sb "b", QVal.str (sb "2")), (sb "a", QVal.str (sb "1"))]

/-- The same two parameters in the opposite order. -/
def restTwoSwapped : Query := [(sb "a", QVal.str (sb "1")), (sb "b", QVal.str (sb "2"))]

/-- The valid signature over the two-parameter set. -/
def sigTwo : Str := hmacHex secret0 (canonMsg restTwo)

/-- The signed two-parameter query. -/
def qTwo : Query := (hmacKey, QVal.str sigTwo) :: restTwo

/-- The signed two-parameter query with its parameters reordered. -/
def qTwoSwapped : Query := (hmacKey, QVal.str sigTwo) :: restTwoSwapped

/-- A request body with every field absent. -/
def emptyBody : ReqBody := ReqBody.mk none none none none none none

/-- A downstream oracle returning an empty GraphQL response. -/
def dsEmpty : Option QVal → Str → DraftInput → GqlResp := fun _ _ _ => GqlResp.mk none none

/-- A successful GraphQL response carrying a draft order. -/
def goodGql (idv urlv : Str) : GqlResp :=
  GqlResp.mk none (some (GqlData.mk (some (DraftOrderCreate.mk (some (Draft.mk idv urlv)) []))))

/-- A downstream oracle answering every call with a fixed successful draft. -/
def dsGood : Option QVal → Str → DraftInput → GqlResp :=
  fun _ _ _ => goodGql (sb "gid://order/1") (sb "https://inv.example/d/1")

/-- A store with `demo.example` installed. -/
def tblDemo : ShopTable := [Row.mk (sb "demo.example") (sb "tok1") none 0]

/-- A request body varying only in its `codFee`. -/
def bodyFee (fee : Option Int) : ReqBody :=
  ReqBody.mk (some [LineItemIn.mk (some (sb "gid://variant/9")) none]) (some (sb "a@b.example"))
    (some (sb "addr-blob")) none fee none

/-- Replace only the `codFee` field of a request body. -/
def withCodFee (b : ReqBody) (fee : Option Int) : ReqBody :=
  ReqBody.mk b.lineItems b.customerEmail b.shippingAddress b.note fee b.shop

/-- A request body naming a shop (for the src/server.js body fallback). -/
def bodyWithShop : ReqBody := ReqBody.mk none none none none none (some (sb "demo.example"))

/-- A downstream REST oracle answering 200. -/
def dsRest : Str → Str → RestResp := fun _ _ => RestResp.mk true 200 (sb "ok")


/-! Order lemmas for the key comparison. -/

/-- Unfolding lemma for `strLe` on two cons cells. -/
theorem strLe_cons (x y : Nat) (xs ys : Str) :
    strLe (x :: xs) (y :: ys) = if x < y then true else if y < x then false else strLe xs ys := rfl

/-- The key order is total. -/
theorem strLe_total (a b : Str) : strLe a b = true ∨ strLe b a = true := by
  induction a generalizing b with
  | nil => left; rfl
  | cons x xs ih =>
    cases b with
    | nil => right; rfl
    | cons y ys =>
      rw [strLe_cons, strLe_cons]
      by_cases h1 : x < y
      · left; simp [h1]
      · by_cases h2 : y < x
        · right; simp [h2]
        · have hxy : x = y := by omega
          subst hxy
          simp only [if_neg h1, if_neg h2]
          exact ih ys

/-- The key order is antisymmetric. -/
theorem strLe_antisymm : ∀ (a b : Str), strLe a b = true → strLe b a = true → a = b := by
  intro a
  induction a with
  | nil =>
    intro b h1 h2
    cases b with
    | nil => rfl
    | cons y ys => simp [strLe] at h2
  | cons x xs ih =>
    intro b h1 h2
    cases b with
    | nil => simp [strLe] at h1
    | cons y ys =>
      rw [strLe_cons] at h1 h2
      rcases Nat.lt_trichotomy x y with hxy | hxy | hxy
      · rw [if_neg (by omega), if_pos hxy] at h2
        exact absurd h2 (by simp)
      · subst hxy
        rw [if_neg (by omega), if_neg (by omega)] at h1 h2
        rw [ih ys h1 h2]
      · rw [if_neg (by omega), if_pos hxy] at h1
        exact absurd h1 (by simp)

/-- The key order is transitive. -/
theorem strLe_trans : ∀ (a b c : Str), strLe a b = true → strLe b c = true → strLe a c = true := by
  intro a
  induction a with
  | nil => intro b c _ _; rfl
  | cons x xs ih =>
    intro b c h1 h2
    cases b with
    | nil => simp [strLe] at h1
    | cons y ys =>
      cases c with
      | nil => simp [strLe] at h2
      | cons z zs =>
        rw [strLe_cons] at h1 h2 ⊢
        rcases Nat.lt_trichotomy x y with hxy | hxy | hxy
        · rcases Nat.lt_trichotomy y z with hyz | hyz | hyz
          · rw [if_pos (by omega)]
          · subst hyz
            rw [if_pos hxy]
          · rw [if_neg (by omega), if_pos hyz] at h2
            exact absurd h2 (by simp)
        · subst hxy
          rcases Nat.lt_trichotomy x z with hxz | hxz | hxz
          · rw [if_pos hxz]
          · subst hxz
            rw [if_neg (by omega), if_neg (by omega)] at h1 h2 ⊢
            exact ih ys zs h1 h2
          · rw [if_neg (by omega), if_pos hxz] at h2
            exact absurd h2 (by simp)
        · rw [if_neg (by omega), if_pos hxy] at h1
          exact absurd h1 (by simp)

/-- The key order as a proposition, for the sortedness machinery. -/
def SLe (a b : Str) : Prop := strLe a b = true

instance : IsAntisymm Str SLe := ⟨strLe_antisymm⟩

instance : IsTrans Str SLe := ⟨strLe_trans⟩

/-! Insertion-sort lemmas. -/

/-- Inserting a key permutes the cons. -/
theorem perm_insertKey (k : Str) (l : List Str) : (insertKey k l).Perm (k :: l) := by
  induction l with
  | nil => exact List.Perm.refl _
  | cons x xs ih =>
    by_cases h : strLe k x = true
    · simp [insertKey, h]
    · simp only [insertKey, if_neg h]
      exact (ih.cons x).trans (List.Perm.swap k x xs)

/-- Sorted keys are preserved and `k` placed by insertion. -/
theorem sorted_insertKey (k : Str) (l : List Str) (h : List.Sorted SLe l) :
    List.Sorted SLe (insertKey k l) := by
  induction l with
  | nil => simp [insertKey]
  | cons x xs ih =>
    rw [List.sorted_cons] at h
    by_cases hk : strLe k x = true
    · simp only [insertKey, if_pos hk]
      rw [List.sorted_cons]
      constructor
      · intro b hb
        rcases List.mem_cons.mp hb with rfl | hb
        · exact hk
        · exact strLe_trans k x b hk (h.1 b hb)
      · rw [List.sorted_cons]
        exact h
    · simp only [insertKey, if_neg hk]
      rw [List.sorted_cons]
      constructor
      · intro b hb
        rcases List.mem_cons.mp ((perm_insertKey k xs).mem_iff.mp hb) with rfl | hb
        · rcases strLe_total x b with hx | hx
          · exact hx
          · exact absurd hx hk
        · exact h.1 b hb
      · exact ih h.2

/-- `sortKeys` permutes its input. -/
theorem perm_sortKeys (l : List Str) : (sortKeys l).Perm l := by
  induction l with
  | nil => exact List.Perm.refl _
  | cons k ks ih =>
    exact (perm_insertKey k (sortKeys ks)).trans (ih.cons k)

/-- `sortKeys` sorts. -/
theorem sorted_sortKeys (l : List Str) : List.Sorted SLe (sortKeys l) := by
  induction l with
  | nil => simp [sortKeys]
  | cons k ks ih => exact sorted_insertKey k (sortKeys ks) ih

/-- Permuted key lists sort to the same list. -/
theorem sortKeys_eq_of_perm (l1 l2 : List Str) (h : l1.Perm l2) : sortKeys l1 = sortKeys l2 :=
  List.eq_of_perm_of_sorted ((perm_sortKeys l1).trans (h.trans (perm_sortKeys l2).symm))
    (sorted_sortKeys l1) (sorted_sortKeys l2)

/-! Pair-sort lemmas relating the spec's pair sorting to the code's key sorting. -/

/-- Inserting a pair inserts its key. -/
theorem map_fst_insertPair (p : Str × QVal) (l : Query) :
    (insertPair p l).map Prod.fst = insertKey p.1 (l.map Prod.fst) := by
  induction l with
  | nil => rfl
  | cons x xs ih =>
    by_cases h : strLe p.1 x.1 = true
    · simp [insertPair, insertKey, h]
    · simp [insertPair, insertKey, h, ih]

/-- Sorting pairs sorts their keys. -/
theorem map_fst_sortPairs (l : Query) :
    (sortPairs l).map Prod.fst = sortKeys (l.map Prod.fst) := by
  induction l with
  | nil => rfl
  | cons p ps ih =>
    simp only [sortPairs, List.map_cons, sortKeys]
    rw [map_fst_insertPair, ih]

/-- Inserting a pair permutes the cons. -/
theorem perm_insertPair (p : Str × QVal) (l : Query) : (insertPair p l).Perm (p :: l) := by
  induction l with
  | nil => exact List.Perm.refl _
  | cons x xs ih =>
    by_cases h : strLe p.1 x.1 = true
    · simp [insertPair, h]
    · simp only [insertPair, if_neg h]
      exact (ih.cons x).trans (List.Perm.swap p x xs)

/-- `sortPairs` permutes its input. -/
theorem perm_sortPairs (l : Query) : (sortPairs l).Perm l := by
  induction l with
  | nil => exact List.Perm.refl _
  | cons p ps ih =>
    exact (perm_insertPair p (sortPairs ps)).trans (ih.cons p)

/-! Association-list lookup lemmas under unique keys. -/

/-- Unfolding lemma for `List.lookup` on a cons. -/
theorem lookup_cons {β : Type} (k : Str) (p : Str × β) (l : List (Str × β)) :
    List.lookup k (p :: l) = if k == p.1 then some p.2 else List.lookup k l := by
  rcases p with ⟨k1, v1⟩
  by_cases h : k == k1
  · simp [List.lookup, h]
  · simp [List.lookup, h]

/-- With unique keys, lookup answers exactly membership. -/
theorem lookup_eq_some_iff_mem {β : Type} (l : List (Str × β)) (k : Str) (v : β)
    (hn : (l.map Prod.fst).Nodup) : List.lookup k l = some v ↔ (k, v) ∈ l := by
  induction l with
  | nil => simp [List.lookup]
  | cons p ps ih =>
    rcases p with ⟨k1, v1⟩
    simp only [List.map_cons, List.nodup_cons] at hn
    rw [lookup_cons]
    by_cases h : k == k1
    · have hk : k = k1 := eq_of_beq h
      subst hk
      rw [if_pos (by simp)]
      constructor
      · intro hv
        have hv2 : v1 = v := by simpa using hv
        subst hv2
        exact List.mem_cons_self _ _
      · intro hv
        rcases List.mem_cons.mp hv with he | he
        · have hv2 : v = v1 := by simpa using congrArg Prod.snd he
          subst hv2
          rfl
        · exact absurd (List.mem_map.mpr ⟨(k, v), he, rfl⟩) hn.1
    · have hk : ¬k = k1 := fun he => h (by rw [he]; simp)
      rw [if_neg h]
      rw [ih hn.2]
      constructor
      · intro hv
        exact List.mem_cons.mpr (Or.inr hv)
      · intro hv
        rcases List.mem_cons.mp hv with he | he
        · exact absurd (congrArg Prod.fst he) hk
        · exact he

/-- With unique keys, lookup is stable under permutation. -/
theorem lookup_perm {β : Type} [DecidableEq β] (l1 l2 : List (Str × β)) (k : Str)
    (hp : l1.Perm l2) (hn : (l1.map Prod.fst).Nodup) : List.lookup k l1 = List.lookup k l2 := by
  have hn2 : (l2.map Prod.fst).Nodup := ((hp.map Prod.fst).nodup_iff).mp hn
  cases e1 : List.lookup k l1 with
  | some v =>
    have hm : (k, v) ∈ l2 := hp.mem_iff.mp ((lookup_eq_some_iff_mem l1 k v hn).mp e1)
    exact ((lookup_eq_some_iff_mem l2 k v hn2).mpr hm).symm
  | none =>
    cases e2 : List.lookup k l2 with
    | none => rfl
    | some v =>
      have hm : (k, v) ∈ l1 := hp.mem_iff.mpr ((lookup_eq_some_iff_mem l2 k v hn2).mp e2)
      rw [(lookup_eq_some_iff_mem l1 k v hn).mpr hm] at e1
      exact absurd e1 (by simp)

/-- With unique keys, the code's canonical message (sorted keys, lookup per
key) equals the spec's (sorted pairs). -/
theorem canonMsg_eq_specCanon (rest : Query) (hn : (rest.map Prod.fst).Nodup) :
    canonMsg rest = specCanon rest := by
  unfold canonMsg specCanon
  rw [← map_fst_sortPairs, List.map_map]
  congr 1
  apply List.map_congr_left
  intro p hp
  have hmem : p ∈ rest := (perm_sortPairs rest).mem_iff.mp hp
  have hl : List.lookup p.1 rest = some p.2 :=
    (lookup_eq_some_iff_mem rest p.1 p.2 hn).mpr hmem
  simp [Function.comp, hl]

/-! Digest-length facts. -/

/-- A SHA-256 digest is 32 bytes. -/
theorem length_sha256 (m : List Nat) : (sha256 m).length = 32 := rfl

/-- An HMAC-SHA256 digest is 32 bytes. -/
theorem length_hmacSha256 (k m : Str) : (hmacSha256 k m).length = 32 := rfl

/-- Hex rendering doubles the length. -/
theorem length_toHex (l : List Nat) : (toHex l).length = 2 * l.length := by
  induction l with
  | nil => rfl
  | cons b bs ih =>
    simp only [toHex] at ih ⊢
    rw [List.flatMap_cons, List.length_append, ih]
    simp
    omega

/-- The hex digest the verifier computes is always 64 characters. -/
theorem length_hmacHex (k m : Str) : (hmacHex k m).length = 64 := by
  unfold hmacHex
  rw [length_toHex, length_hmacSha256]

/-! Permutation invariance of the canonicalization and the verifier. -/

/-- Filtering keeps the key list duplicate-free. -/
theorem nodup_filter_keys (q : Query) (p : Str × QVal → Bool)
    (hn : (q.map Prod.fst).Nodup) : ((q.filter p).map Prod.fst).Nodup :=
  hn.sublist (List.Sublist.map Prod.fst (List.filter_sublist q))

/-- The canonical message is invariant under parameter reordering. -/
theorem canonMsg_perm (r1 r2 : Query) (hp : r1.Perm r2)
    (hn : (r1.map Prod.fst).Nodup) : canonMsg r1 = canonMsg r2 := by
  unfold canonMsg
  rw [sortKeys_eq_of_perm _ _ (hp.map Prod.fst)]
  congr 1
  apply List.map_congr_left
  intro k hk
  rw [lookup_perm r1 r2 k hp hn]

/-- Verification is invariant under parameter reordering. -/
theorem verifyProxyHmac_perm (q1 q2 : Query) (s : Str) (hp : q1.Perm q2)
    (hn : (q1.map Prod.fst).Nodup) : verifyProxyHmac q1 s = verifyProxyHmac q2 s := by
  have h1 : (q1.filter (fun p => !(p.1 == hmacKey))).Perm
      (q2.filter (fun p => !(p.1 == hmacKey))) := hp.filter _
  have h2 := nodup_filter_keys q1 (fun p => !(p.1 == hmacKey)) hn
  simp only [verifyProxyHmac]
  rw [canonMsg_perm _ _ h1 h2, lookup_perm q1 q2 hmacKey hp hn]

/-- The code's verifier agrees with the byte-level spec comparison on every
query with unique keys. -/
theorem verify_eq_specVerifyBytes (q : Query) (s : Str) (hn : (q.map Prod.fst).Nodup) :
    verifyProxyHmac q s = specVerifyBytes q s := by
  simp only [verifyProxyHmac, specVerifyBytes]
  rw [canonMsg_eq_specCanon _ (nodup_filter_keys q _ hn)]
  cases hb : bufferFromQVal (q.lookup hmacKey) with
  | none => simp [tryCompare, hb]
  | some bytes =>
    simp only [tryCompare, hb, Option.some_bind]
    unfold timingSafeEqualJs
    by_cases hl : (hmacHex s (specCanon (q.filter fun p => !(p.1 == hmacKey)))).length = bytes.length
    · rw [if_pos hl]
      by_cases he : bytes = hmacHex s (specCanon (q.filter fun p => !(p.1 == hmacKey)))
      · subst he
        simp
      · simp [he, Ne.symm he]
    · rw [if_neg hl]
      have he : ¬bytes = hmacHex s (specCanon (q.filter fun p => !(p.1 == hmacKey))) := by
        intro he
        rw [he] at hl
        exact hl rfl
      simp [he]

/-! Credential Store lemmas. -/

/-- Unfolding lemma for `List.find?` on a cons of rows. -/
theorem find?_cons_row (p : Row → Bool) (r : Row) (rs : List Row) :
    List.find? p (r :: rs) = if p r then some r else List.find? p rs := by
  by_cases h : p r = true
  · rw [@List.find?_cons_of_pos _ p r rs h, if_pos h]
  · rw [@List.find?_cons_of_neg _ p r rs h, if_neg h]

/-- The row `upsert` leaves under the key: the conflicting row with its
`access_token`/`scope` replaced and `created_at` kept, or a fresh row. -/
theorem upsert_find (tbl : ShopTable) (ten tok : Str) (sc : Option Str) (now : Nat) :
    (upsert tbl ten tok sc now).find? (fun r => r.shop == ten) =
      some (match tbl.find? (fun r => r.shop == ten) with
            | some r => Row.mk r.shop tok sc r.created_at
            | none => Row.mk ten tok sc now) := by
  induction tbl with
  | nil => simp [upsert]
  | cons r rs ih =>
    rw [find?_cons_row]
    by_cases h : (r.shop == ten) = true
    · rw [if_pos h]
      have hany : ((r :: rs).any fun x => x.shop == ten) = true := by
        rw [List.any_cons, h, Bool.true_or]
      have hsh : r.shop = ten := by simpa using h
      have hu : upsert (r :: rs) ten tok sc now =
          Row.mk r.shop tok sc r.created_at ::
            rs.map (fun x => if x.shop == ten then Row.mk x.shop tok sc x.created_at else x) := by
        simp [upsert, hany, hsh]
      rw [hu, find?_cons_row]
      dsimp only
      rw [if_pos h]
    · rw [if_neg h]
      cases ha : rs.any (fun x => x.shop == ten) with
      | true =>
        have hany : ((r :: rs).any fun x => x.shop == ten) = true := by
          rw [List.any_cons, ha, Bool.or_true]
        have hsh : ¬r.shop = ten := by simpa using h
        have hu : upsert (r :: rs) ten tok sc now =
            r :: rs.map (fun x => if x.shop == ten then Row.mk x.shop tok sc x.created_at else x) := by
          simp [upsert, hany, hsh]
        have hu2 : upsert rs ten tok sc now =
            rs.map (fun x => if x.shop == ten then Row.mk x.shop tok sc x.created_at else x) := by
          simp [upsert, ha]
        rw [hu, find?_cons_row, if_neg h, ← hu2, ih]
      | false =>
        have hany : ((r :: rs).any fun x => x.shop == ten) = false := by
          rw [List.any_cons, ha, Bool.or_false]
          simpa using h
        have hu : upsert (r :: rs) ten tok sc now =
            r :: (rs ++ [Row.mk ten tok sc now]) := by
          simp [upsert, hany]
        have hu2 : upsert rs ten tok sc now = rs ++ [Row.mk ten tok sc now] := by
          simp [upsert, ha]
        rw [hu, find?_cons_row, if_neg h, ← hu2, ih]

/-- An upsert keeps shop keys unique: no duplicate row is ever produced. -/
theorem upsert_nodup (tbl : ShopTable) (ten tok : Str) (sc : Option Str) (now : Nat)
    (hn : (tbl.map Row.shop).Nodup) : ((upsert tbl ten tok sc now).map Row.shop).Nodup := by
  unfold upsert
  cases ha : tbl.any (fun r => r.shop == ten) with
  | true =>
    rw [if_pos rfl]
    have he : (tbl.map (fun r => if r.shop == ten then Row.mk r.shop tok sc r.created_at else r)).map
        Row.shop = tbl.map Row.shop := by
      rw [List.map_map]
      apply List.map_congr_left
      intro r _
      by_cases h : r.shop = ten
      · simp [h]
      · simp [h]
    rw [he]
    exact hn
  | false =>
    rw [if_neg (by simp)]
    rw [List.map_append, List.nodup_append]
    refine ⟨hn, by simp, ?_⟩
    intro x hx hy
    simp at hy
    rcases List.mem_map.mp hx with ⟨r, hr, he⟩
    have hfalse : (tbl.any fun q => q.shop == ten) = true :=
      List.any_eq_true.mpr ⟨r, hr, by simp [he, hy]⟩
    rw [ha] at hfalse
    exact absurd hfalse (by simp)

/-- A query whose signature field holds the string `sig` verifies exactly when
`sig` is the digest of the canonical message of the remaining parameters. -/
theorem verify_cons_sig (rest : Query) (s sig : Str) :
    verifyProxyHmac ((hmacKey, QVal.str sig) :: rest) s =
      decide (hmacHex s (canonMsg (rest.filter (fun p => !(p.1 == hmacKey)))) = sig) := by
  have hfil : ((hmacKey, QVal.str sig) :: rest).filter (fun p => !(p.1 == hmacKey)) =
      rest.filter (fun p => !(p.1 == hmacKey)) := by
    simp [List.filter_cons]
  simp only [verifyProxyHmac, hfil, lookup_cons]
  rw [if_pos (by simp : (hmacKey == hmacKey) = true)]
  simp only [tryCompare, bufferFromQVal, Option.some_bind, timingSafeEqualJs]
  by_cases hl : (hmacHex s (canonMsg (rest.filter fun p => !(p.1 == hmacKey)))).length = sig.length
  · rw [if_pos hl]
    by_cases he : hmacHex s (canonMsg (rest.filter fun p => !(p.1 == hmacKey))) = sig
    · simp [he]
    · simp [he]
  · rw [if_neg hl]
    have he : ¬hmacHex s (canonMsg (rest.filter fun p => !(p.1 == hmacKey))) = sig := by
      intro he
      rw [he] at hl
      exact hl rfl
    simp [he]

/-! Claim theorems. -/

/-- Claim C4: the Signature Verifier is deterministic — equal parameter sets
under one secret give equal results — and reflexive: signing the canonical
message of a parameter set and verifying the set plus that signature under
the same secret returns true. -/
theorem C4_deterministic_reflexive :
    (∀ (q1 q2 : Query) (s : Str), q1 = q2 → verifyProxyHmac q1 s = verifyProxyHmac q2 s) ∧
    (∀ (rest : Query) (s : Str), hmacKey ∉ rest.map Prod.fst →
      verifyProxyHmac ((hmacKey, QVal.str (hmacHex s (canonMsg rest))) :: rest) s = true) := by
  constructor
  · intro q1 q2 s h
    rw [h]
  · intro rest s hno
    rw [verify_cons_sig]
    have hfil : rest.filter (fun p => !(p.1 == hmacKey)) = rest := by
      apply List.filter_eq_self.mpr
      intro p hp
      have : ¬p.1 = hmacKey := fun he => hno (he ▸ List.mem_map.mpr ⟨p, hp, rfl⟩)
      simp [this]
    rw [hfil]
    simp

/-- Witness for C4 at a concrete parameter set and secret. -/
theorem C4_deterministic_reflexive_witness :
    verifyProxyHmac ((hmacKey, QVal.str (hmacHex secret0 (canonMsg restDemo))) :: restDemo)
      secret0 = true :=
  C4_deterministic_reflexive.2 restDemo secret0 (by decide)

/-- Claim C5 as stated is false: reordering the input parameters before
canonicalization does not flip a previously-true verification to false —
here a signed query verifies in both parameter orders. -/
theorem C5_counterexample :
    verifyProxyHmac qTwo secret0 = true ∧
    qTwo.Perm qTwoSwapped ∧ qTwo ≠ qTwoSwapped ∧
    verifyProxyHmac qTwoSwapped secret0 = true := by
  refine ⟨by decide, List.Perm.cons _ (List.Perm.swap _ _ _), by decide, by decide⟩

/-- Claim C5 (amended): replacing the string signature of a verifying query
by any different string flips the verification to false (in particular any
single-character mutation), while reordering the parameters leaves the
decision unchanged — canonicalization is order-independent but the
comparison is content-sensitive. -/
theorem C5_amended_mutation_reorder :
    (∀ (rest : Query) (s sig sig2 : Str),
      verifyProxyHmac ((hmacKey, QVal.str sig) :: rest) s = true → sig2 ≠ sig →
      verifyProxyHmac ((hmacKey, QVal.str sig2) :: rest) s = false) ∧
    (∀ (q1 q2 : Query) (s : Str), q1.Perm q2 → (q1.map Prod.fst).Nodup →
      verifyProxyHmac q1 s = verifyProxyHmac q2 s) := by
  constructor
  · intro rest s sig sig2 hv hne
    rw [verify_cons_sig] at hv ⊢
    have hd := of_decide_eq_true hv
    rw [hd]
    exact decide_eq_false (Ne.symm hne)
  · intro q1 q2 s hp hn
    exact verifyProxyHmac_perm q1 q2 s hp hn

/-- Witness for C5 (amended): a concrete mutation is rejected and a concrete
reordering decides identically. -/
theorem C5_amended_mutation_reorder_witness :
    verifyProxyHmac ((hmacKey, QVal.str (sb "forged")) :: restTwo) secret0 = false ∧
    verifyProxyHmac qTwo secret0 = verifyProxyHmac qTwoSwapped secret0 :=
  ⟨C5_amended_mutation_reorder.1 restTwo secret0 sigTwo (sb "forged") (by decide) (by decide),
   C5_amended_mutation_reorder.2 qTwo qTwoSwapped secret0
     (List.Perm.cons _ (List.Perm.swap _ _ _)) (by decide)⟩

/-- Claim C6: the Signature Verifier always returns a boolean and never
throws — an absent signature field, or a supplied signature whose length is
not the digest's 64 hex characters, is verification failure (false), not an
error. -/
theorem C6_total_no_throw (q : Query) (s : Str) :
    (verifyProxyHmac q s = true ∨ verifyProxyHmac q s = false) ∧
    (q.lookup hmacKey = none → verifyProxyHmac q s = false) ∧
    (∀ sig : Str, q.lookup hmacKey = some (QVal.str sig) → sig.length ≠ 64 →
      verifyProxyHmac q s = false) := by
  refine ⟨?_, ?_, ?_⟩
  · cases h : verifyProxyHmac q s
    · right; rfl
    · left; rfl
  · intro h
    simp [verifyProxyHmac, h, tryCompare, bufferFromQVal]
  · intro sig h hlen
    simp only [verifyProxyHmac, h, tryCompare, bufferFromQVal, Option.some_bind,
      timingSafeEqualJs]
    have hne : ¬(hmacHex s (canonMsg (q.filter fun p => !(p.1 == hmacKey)))).length =
        sig.length := by
      rw [length_hmacHex]
      omega
    rw [if_neg hne]
    rfl

/-- Witness for C6: an absent signature and a short signature both fail. -/
theorem C6_total_no_throw_witness :
    verifyProxyHmac [] secret0 = false ∧
    verifyProxyHmac [(hmacKey, QVal.str (sb "ab"))] secret0 = false :=
  ⟨(C6_total_no_throw [] secret0).2.1 rfl,
   (C6_total_no_throw [(hmacKey, QVal.str (sb "ab"))] secret0).2.2 (sb "ab") (by decide)
     (by decide)⟩

/-- Claim C2: a `POST /proxy/cod` whose query carries an incorrect signature
is answered 403, with neither a Credential Store lookup nor a downstream
call; moreover the verification event is always the first of every trace,
so verification precedes any lookup. -/
theorem C2_forbidden_before_lookup :
    (∀ (secret : Str) (q : Query) (body : ReqBody) (tbl : ShopTable)
        (ds : Option QVal → Str → DraftInput → GqlResp),
      verifyProxyHmac q secret = false →
      (proxyCod secret q body tbl ds).resp.status = 403 ∧
      (proxyCod secret q body tbl ds).events = [Ev.verified false]) ∧
    (∀ (secret : Str) (q : Query) (body : ReqBody) (tbl : ShopTable)
        (ds : Option QVal → Str → DraftInput → GqlResp),
      (proxyCod secret q body tbl ds).events.head? =
        some (Ev.verified (verifyProxyHmac q secret))) := by
  constructor
  · intro secret q body tbl ds h
    simp [proxyCod, h]
  · intro secret q body tbl ds
    cases h : verifyProxyHmac q secret
    · simp [proxyCod, h]
    · simp only [proxyCod, h, if_true]
      repeat' split
      all_goals rfl

/-- Witness for C2 at a concrete unsigned request. -/
theorem C2_forbidden_before_lookup_witness :
    (proxyCod secret0 [] emptyBody [] dsEmpty).resp.status = 403 ∧
    (proxyCod secret0 [] emptyBody [] dsEmpty).events = [Ev.verified false] :=
  C2_forbidden_before_lookup.1 secret0 [] emptyBody [] dsEmpty (by decide)

/-- Claim C7: a correctly signed request whose shop is not installed is
answered `401 {ok:false, error:"Shop not installed"}` with no downstream
call, and a Credential Store lookup of an unknown tenant yields `none`
(NotFound) — lookup never throws, a missing row is a normal outcome. -/
theorem C7_unknown_shop_unauthorized :
    (∀ (secret : Str) (q : Query) (body : ReqBody) (tbl : ShopTable)
        (ds : Option QVal → Str → DraftInput → GqlResp),
      verifyProxyHmac q secret = true →
      lookupToken tbl (q.lookup (sb "shop")) = none →
      (proxyCod secret q body tbl ds).resp =
        HttpResp.mk 401 [(sb "ok", BVal.b false),
                         (sb "error", BVal.s (sb "Shop not installed"))] ∧
      (proxyCod secret q body tbl ds).events =
        [Ev.verified true, Ev.storeLookup (q.lookup (sb "shop"))]) ∧
    (∀ (tbl : ShopTable) (t : Str), (∀ r ∈ tbl, r.shop ≠ t) →
      lookupToken tbl (some (QVal.str t)) = none) := by
  constructor
  · intro secret q body tbl ds hv hl
    simp [proxyCod, hv, hl]
  · intro tbl t h
    have hf : tbl.find? (fun r => r.shop == t) = none :=
      List.find?_eq_none.mpr (fun r hr => by simpa using h r hr)
    simp [lookupToken, hf]

/-- Witness for C7: a concrete correctly signed request against an empty
store is answered 401 without a downstream call. -/
theorem C7_unknown_shop_unauthorized_witness :
    (proxyCod secret0 qDemo emptyBody [] dsEmpty).resp =
      HttpResp.mk 401 [(sb "ok", BVal.b false),
                       (sb "error", BVal.s (sb "Shop not installed"))] ∧
    (proxyCod secret0 qDemo emptyBody [] dsEmpty).events =
      [Ev.verified true, Ev.storeLookup (qDemo.lookup (sb "shop"))] :=
  C7_unknown_shop_unauthorized.1 secret0 qDemo emptyBody [] dsEmpty (by decide) (by decide)

/-- Claim C8 as stated is false: on a fully valid signed request with a
successful downstream order creation the relay answers 200, but the body
carries the order id under the key `draftOrderId` and the invoice URL under
`invoiceUrl` — there is no `orderId` and no `followUpUrl` field. -/
theorem C8_counterexample :
    (proxyCod secret0 qDemo emptyBody tblDemo dsGood).resp.status = 200 ∧
    (proxyCod secret0 qDemo emptyBody tblDemo dsGood).resp.body.lookup (sb "orderId") = none ∧
    (proxyCod secret0 qDemo emptyBody tblDemo dsGood).resp.body.lookup (sb "followUpUrl") = none ∧
    (proxyCod secret0 qDemo emptyBody tblDemo dsGood).resp.body.lookup (sb "draftOrderId") =
      some (BVal.s (sb "gid://order/1")) := by
  decide

/-- Claim C8 (amended): on every fully valid signed request for an installed
tenant whose downstream call succeeds with an order id and invoice URL, the
relay answers 200 with body `{ok:true, draftOrderId, invoiceUrl}` carrying
the downstream-assigned id and invoice URL. -/
theorem C8_amended_success (secret : Str) (q : Query) (body : ReqBody) (tbl : ShopTable)
    (ds : Option QVal → Str → DraftInput → GqlResp) (tok idv urlv : Str)
    (hv : verifyProxyHmac q secret = true)
    (hl : lookupToken tbl (q.lookup (sb "shop")) = some tok)
    (hd : ds (q.lookup (sb "shop")) tok (buildDraftInput body) = goodGql idv urlv) :
    (proxyCod secret q body tbl ds).resp =
      HttpResp.mk 200 [(sb "ok", BVal.b true), (sb "draftOrderId", BVal.s idv),
                       (sb "invoiceUrl", BVal.s urlv)] := by
  simp [proxyCod, hv, hl, hd, goodGql]

/-- Witness for C8 (amended) at a concrete signed request, installed shop and
successful downstream response. -/
theorem C8_amended_success_witness :
    (proxyCod secret0 qDemo emptyBody tblDemo dsGood).resp =
      HttpResp.mk 200 [(sb "ok", BVal.b true),
                       (sb "draftOrderId", BVal.s (sb "gid://order/1")),
                       (sb "invoiceUrl", BVal.s (sb "https://inv.example/d/1"))] :=
  C8_amended_success secret0 qDemo emptyBody tblDemo dsGood (sb "tok1")
    (sb "gid://order/1") (sb "https://inv.example/d/1") (by decide) (by decide) rfl

/-- Claim C9 as stated is false: the downstream payload is not built from
`codFee` — two request bodies differing only in `codFee` produce the same
payload, which carries no fee at all. -/
theorem C9_counterexample :
    buildDraftInput (bodyFee (some 7)) = buildDraftInput (bodyFee none) ∧
    (bodyFee (some 7)).codFee ≠ (bodyFee none).codFee := by
  decide

/-- Claim C9 (amended): the payload is built from the body's `lineItems`,
`customer`, `shippingAddress` and `note`, with the two fixed tags
`["COD","COD-App"]` attached, each line item's quantity defaulting to 1 when
absent and the note defaulting to `"COD order"`; `codFee` is destructured
with default 0 but never enters the payload — the payload is independent of
it. -/
theorem C9_amended_payload (body : ReqBody) :
    (buildDraftInput body).tags = [sb "COD", sb "COD-App"] ∧
    (buildDraftInput body).note = (body.note).getD (sb "COD order") ∧
    (buildDraftInput body).email = nonEmptyStr body.customerEmail ∧
    (buildDraftInput body).shippingAddress = body.shippingAddress ∧
    (buildDraftInput body).billingAddress = body.shippingAddress ∧
    (buildDraftInput body).lineItems =
      ((body.lineItems).getD []).map
        (fun li => DraftLineItem.mk li.variantId (jsQuantity li.quantity)) ∧
    jsQuantity none = 1 ∧
    (∀ fee, buildDraftInput (withCodFee body fee) = buildDraftInput body) :=
  ⟨rfl, rfl, rfl, rfl, rfl, rfl, rfl, fun _ => rfl⟩

/-- Claim C3: an upsert followed by a lookup returns the new credential, a
second upsert overwrites rather than duplicates (keys stay unique, so no
uniqueness violation can arise), and the overwritten row keeps its original
insertion timestamp. -/
theorem C3_upsert_overwrite (tbl : ShopTable) (ten c1 c2 : Str) (sc1 sc2 : Option Str)
    (t1 t2 : Nat) (hn : (tbl.map Row.shop).Nodup) :
    lookupToken (upsert tbl ten c1 sc1 t1) (some (QVal.str ten)) = some c1 ∧
    lookupToken (upsert (upsert tbl ten c1 sc1 t1) ten c2 sc2 t2)
      (some (QVal.str ten)) = some c2 ∧
    ((upsert (upsert tbl ten c1 sc1 t1) ten c2 sc2 t2).map Row.shop).Nodup ∧
    Option.map Row.created_at
        ((upsert (upsert tbl ten c1 sc1 t1) ten c2 sc2 t2).find? (fun r => r.shop == ten)) =
      Option.map Row.created_at
        ((upsert tbl ten c1 sc1 t1).find? (fun r => r.shop == ten)) := by
  refine ⟨?_, ?_, upsert_nodup _ _ _ _ _ (upsert_nodup _ _ _ _ _ hn), ?_⟩
  · cases h : tbl.find? (fun r => r.shop == ten) <;>
      simp [lookupToken, upsert_find, h]
  · cases h : tbl.find? (fun r => r.shop == ten) <;>
      simp [lookupToken, upsert_find, h]
  · rw [upsert_find, upsert_find]
    cases h : tbl.find? (fun r => r.shop == ten) <;> simp [h]

/-- Witness for C3: the spec's two-upsert scenario on an empty store. -/
theorem C3_upsert_overwrite_witness :
    lookupToken (upsert (upsert [] (sb "shop-a.example") (sb "tok1") none 5)
        (sb "shop-a.example") (sb "tok2") none 9)
      (some (QVal.str (sb "shop-a.example"))) = some (sb "tok2") ∧
    Option.map Row.created_at
        ((upsert (upsert [] (sb "shop-a.example") (sb "tok1") none 5)
            (sb "shop-a.example") (sb "tok2") none 9).find?
          (fun r => r.shop == sb "shop-a.example")) =
      Option.map Row.created_at
        ((upsert [] (sb "shop-a.example") (sb "tok1") none 5).find?
          (fun r => r.shop == sb "shop-a.example")) :=
  ⟨(C3_upsert_overwrite [] (sb "shop-a.example") (sb "tok1") (sb "tok2") none none 5 9
      (by decide)).2.1,
   (C3_upsert_overwrite [] (sb "shop-a.example") (sb "tok1") (sb "tok2") none none 5 9
      (by decide)).2.2.2⟩

/-- Claim C1 as stated is false: the code does not return true exactly when
the supplied signature equals the hex digest — a signature supplied as an
array of decimal numerals (repeated `hmac` query parameters) is coerced
byte-wise by `Buffer.from` and accepted, although the value does not equal
the digest string. -/
theorem C1_counterexample :
    verifyProxyHmac qArrDemo secret0 = true ∧
    specVerify qArrDemo secret0 = false ∧
    (qArrDemo.map Prod.fst).Nodup := by
  decide

/-- Claim C1 (amended): for every query mapping (unique keys) and secret the
verifier follows the spec's canonicalization algorithm — remove the signature
field, render values (arrays comma-joined), sort keys byte-lexicographically,
join `key=value` with `&`, HMAC-SHA256 to lowercase hex — and returns true
exactly when the supplied signature's byte rendering (string bytes, or
Node's per-entry numeric coercion for an array) equals the digest; an absent
signature fails. -/
theorem C1_amended_refinement (q : Query) (s : Str) (hn : (q.map Prod.fst).Nodup) :
    verifyProxyHmac q s = specVerifyBytes q s :=
  verify_eq_specVerifyBytes q s hn

/-- Witness for C1 (amended) at a concrete signed query. -/
theorem C1_amended_refinement_witness :
    verifyProxyHmac qDemo secret0 = specVerifyBytes qDemo secret0 :=
  C1_amended_refinement qDemo secret0 (by decide)

/-- Claim C10: the src/server.js proxy handler performs no signature
verification — its response and downstream call depend on the query only
through the `shop` parameter, so requests differing in any signature
parameters behave identically — and with `shop` absent from the query the
tenant is taken from the unauthenticated request body, so any caller naming
an installed shop triggers a credential-spending downstream call. -/
theorem C10_no_signature_gate :
    (∀ (q1 q2 : Query) (body : ReqBody) (tbl : ShopTable) (ds : Str → Str → RestResp),
      q1.lookup (sb "shop") = q2.lookup (sb "shop") →
      serverProxyCod q1 body tbl ds = serverProxyCod q2 body tbl ds) ∧
    (∀ (q : Query) (body : ReqBody) (tbl : ShopTable) (ds : Str → Str → RestResp)
        (t tok : Str),
      q.lookup (sb "shop") = none → body.shop = some t →
      (tbl.find? (fun r => r.shop == t)).map (fun r => r.access_token) = some tok →
      t ≠ [] →
      Ev2.fetchRest t tok ∈ (serverProxyCod q body tbl ds).events) := by
  constructor
  · intro q1 q2 body tbl ds h
    unfold serverProxyCod shopOf
    rw [h]
  · intro q body tbl ds t tok hq hb hf ht
    have hs : shopOf q body = t := by
      simp [shopOf, hq, bodyShop, hb]
    have hemp : t.isEmpty = false := by
      cases t
      · exact absurd rfl ht
      · rfl
    simp only [serverProxyCod, hs, hemp]
    rw [if_neg (by simp)]
    rw [hf]
    dsimp only
    split <;> simp

/-- Witness for C10: a signature parameter is ignored, and a body-named
installed shop draws a downstream call spending its token. -/
theorem C10_no_signature_gate_witness :
    serverProxyCod [(sb "signature", QVal.str (sb "zzz"))] emptyBody tblDemo dsRest =
      serverProxyCod [] emptyBody tblDemo dsRest ∧
    Ev2.fetchRest (sb "demo.example") (sb "tok1") ∈
      (serverProxyCod [] bodyWithShop tblDemo dsRest).events :=
  ⟨C10_no_signature_gate.1 [(sb "signature", QVal.str (sb "zzz"))] [] emptyBody tblDemo dsRest
     (by decide),
   C10_no_signature_gate.2 [] bodyWithShop tblDemo dsRest (sb "demo.example") (sb "tok1")
     rfl rfl (by decide) (by decide)⟩
